import Mathlib

/-!
Verification of the Fabry-Perot loss-measurement tool (`FP_analysis.py`, `scan.py`).

Wavelength/power data is embedded as rational lists; derived quantities that go
through `np.sqrt` / `np.log` live in an extended-value type `NpVal` mirroring
IEEE-754 / numpy semantics (finite real, +inf, -inf, NaN), because the analysis
script performs unguarded float arithmetic whose NaN/inf propagation is
observable behaviour.  Python exceptions are modelled with `Except`.
-/

/-- Errors a Python expression in the analysis script can actually raise. -/
inductive PyErr where
  | indexError
deriving DecidableEq, Repr

/-- Extended value mirroring a numpy float64 scalar: a finite real, an
infinity of either sign, or NaN.  Signed zero is not tracked (it is never
observable in the code under verification). -/
inductive NpVal where
  | fin (x : ℝ)
  | pinf
  | ninf
  | nan

namespace NpVal

/-- Addition with IEEE-754 special-value rules. -/
noncomputable def add : NpVal → NpVal → NpVal
  | nan, _ => nan
  | _, nan => nan
  | fin x, fin y => fin (x + y)
  | fin _, pinf => pinf
  | fin _, ninf => ninf
  | pinf, fin _ => pinf
  | ninf, fin _ => ninf
  | pinf, pinf => pinf
  | ninf, ninf => ninf
  | pinf, ninf => nan
  | ninf, pinf => nan

/-- Subtraction with IEEE-754 special-value rules. -/
noncomputable def sub : NpVal → NpVal → NpVal
  | nan, _ => nan
  | _, nan => nan
  | fin x, fin y => fin (x - y)
  | fin _, pinf => ninf
  | fin _, ninf => pinf
  | pinf, fin _ => pinf
  | ninf, fin _ => ninf
  | pinf, pinf => nan
  | ninf, ninf => nan
  | pinf, ninf => pinf
  | ninf, pinf => ninf

/-- Multiplication with IEEE-754 special-value rules (`0 * inf = NaN`). -/
noncomputable def mul : NpVal → NpVal → NpVal
  | nan, _ => nan
  | _, nan => nan
  | fin x, fin y => fin (x * y)
  | fin x, pinf => if x = 0 then nan else if 0 < x then pinf else ninf
  | fin x, ninf => if x = 0 then nan else if 0 < x then ninf else pinf
  | pinf, fin y => if y = 0 then nan else if 0 < y then pinf else ninf
  | ninf, fin y => if y = 0 then nan else if 0 < y then ninf else pinf
  | pinf, pinf => pinf
  | ninf, ninf => pinf
  | pinf, ninf => ninf
  | ninf, pinf => ninf

/-- Division with IEEE-754 special-value rules: finite/0 is a signed infinity,
0/0 and inf/inf are NaN, finite/inf is 0. -/
noncomputable def div : NpVal → NpVal → NpVal
  | nan, _ => nan
  | _, nan => nan
  | fin x, fin y =>
      if y = 0 then (if x = 0 then nan else if 0 < x then pinf else ninf)
      else fin (x / y)
  | fin _, pinf => fin 0
  | fin _, ninf => fin 0
  | pinf, fin y => if 0 ≤ y then pinf else ninf
  | ninf, fin y => if 0 ≤ y then ninf else pinf
  | pinf, pinf => nan
  | pinf, ninf => nan
  | ninf, pinf => nan
  | ninf, ninf => nan

/-- Square root, `np.sqrt`: NaN on negative arguments. -/
noncomputable def sqrt : NpVal → NpVal
  | fin x => if 0 ≤ x then fin (Real.sqrt x) else nan
  | pinf => pinf
  | ninf => nan
  | nan => nan

/-- Natural logarithm, `np.log`: NaN on negative arguments, `-inf` at 0. -/
noncomputable def log : NpVal → NpVal
  | fin x => if 0 < x then fin (Real.log x) else if x = 0 then ninf else nan
  | pinf => pinf
  | ninf => nan
  | nan => nan

theorem add_nan_left (v : NpVal) : add nan v = nan := by cases v <;> rfl

theorem add_nan_right (v : NpVal) : add v nan = nan := by cases v <;> rfl

theorem sub_nan_left (v : NpVal) : sub nan v = nan := by cases v <;> rfl

theorem sub_nan_right (v : NpVal) : sub v nan = nan := by cases v <;> rfl

theorem mul_nan_left (v : NpVal) : mul nan v = nan := by cases v <;> rfl

theorem mul_nan_right (v : NpVal) : mul v nan = nan := by cases v <;> rfl

theorem div_nan_left (v : NpVal) : div nan v = nan := by cases v <;> rfl

theorem div_nan_right (v : NpVal) : div v nan = nan := by cases v <;> rfl

end NpVal

/-- Python indexing `xs[i]` with a non-negative literal index, raising
`IndexError` when out of range. -/
def pyGet (xs : List ℚ) (i : ℕ) : Except PyErr ℚ :=
  if h : i < xs.length then Except.ok (xs.get ⟨i, h⟩) else Except.error PyErr.indexError

/-- Numpy fancy indexing `xs[idx]` for an integer index array: returns the
selected entries, raising `IndexError` when some index is out of bounds. -/
def fancyIndex (xs : List ℚ) : List ℕ → Except PyErr (List ℚ)
  | [] => Except.ok []
  | i :: rest => do
      let v ← pyGet xs i
      let vs ← fancyIndex xs rest
      pure (v :: vs)

/-- The bounds-respecting result of fancy indexing, as a pure function. -/
def extract (xs : List ℚ) (idx : List ℕ) : List ℚ :=
  idx.map (fun i => xs.getD i 0)

/-- Arithmetic mean of a rational list (junk value 0 on the empty list; the
empty case is handled separately by `npMean`). -/
def ratMean (xs : List ℚ) : ℚ :=
  xs.sum / xs.length

/-- Model of `np.mean`: NaN on an empty array, otherwise the finite mean. -/
noncomputable def npMean (xs : List ℚ) : NpVal :=
  if xs = [] then NpVal.nan else NpVal.fin ((ratMean xs : ℚ) : ℝ)

/-- Embedding of `calculate_loss(wl, power, ind_max, ind_min, R, n_eff)` from
`FP_analysis.py` lines 78-92, statement by statement.  Numpy warnings
(division by zero, invalid value) do not raise, so the only possible Python
exception is `IndexError`; degenerate arithmetic propagates NaN/inf through
`NpVal`. -/
noncomputable def calculate_loss (wl power : List ℚ) (ind_max ind_min : List ℕ)
    (R n_eff : ℚ) : Except PyErr NpVal := do
  let loc_max ← fancyIndex wl ind_max
  let _loc_min ← fancyIndex wl ind_min
  let pmax ← fancyIndex power ind_max
  let pmin ← fancyIndex power ind_min
  let mean_max := npMean pmax
  let mean_min := npMean pmin
  let K := NpVal.div (NpVal.sub mean_max mean_min) (NpVal.add mean_max mean_min)
  let R_tilde := NpVal.div
      (NpVal.sub (NpVal.fin 1) (NpVal.sqrt (NpVal.sub (NpVal.fin 1) (NpVal.mul K K)))) K
  let a5 ← pyGet loc_max 5
  let a4 ← pyGet loc_max 4
  let _fsr_lambda := a5 - a4
  let a0 ← pyGet loc_max 0
  let a1 ← pyGet loc_max 1
  let L_meas := NpVal.mul
      (NpVal.div (NpVal.fin ((a0 ^ 2 : ℚ) : ℝ)) (NpVal.fin ((2 * n_eff * (a1 - a0) : ℚ) : ℝ)))
      (NpVal.fin ((1e-9 : ℚ) : ℝ))
  pure (NpVal.div
    (NpVal.div (NpVal.log (NpVal.div (NpVal.fin ((R : ℚ) : ℝ)) R_tilde)) L_meas)
    (NpVal.fin ((1e2 : ℚ) : ℝ)))

theorem pyGet_ok (xs : List ℚ) (i : ℕ) (h : i < xs.length) :
    pyGet xs i = Except.ok (xs.getD i 0) := by
  simp [pyGet, h, List.getD_eq_getElem?_getD, List.getElem?_eq_getElem h]

theorem pyGet_err (xs : List ℚ) (i : ℕ) (h : ¬ i < xs.length) :
    pyGet xs i = Except.error PyErr.indexError := by
  simp [pyGet, h]

theorem fancyIndex_ok (xs : List ℚ) (idx : List ℕ) (h : ∀ i ∈ idx, i < xs.length) :
    fancyIndex xs idx = Except.ok (extract xs idx) := by
  induction idx with
  | nil => rfl
  | cons i rest ih =>
      have hi : i < xs.length := h i (List.mem_cons_self i rest)
      have hrest : ∀ j ∈ rest, j < xs.length := fun j hj => h j (List.mem_cons_of_mem i hj)
      simp [fancyIndex, pyGet_ok xs i hi, ih hrest, extract, bind, Except.bind, pure, Except.pure]

theorem extract_length (xs : List ℚ) (idx : List ℕ) :
    (extract xs idx).length = idx.length := by
  simp [extract]

/-- Python `str.upper()` restricted to the ASCII identifiers used here. -/
def pyUpper (s : String) : String :=
  ⟨s.data.map Char.toUpper⟩

/-- Physical constants per polarization mode, `(R, n_eff)`. -/
structure ModeParameters where
  R : ℚ
  n_eff : ℚ
deriving DecidableEq, Repr

/-- Error raised by the mode lookup (the script raises `ValueError`). -/
inductive ModeErr where
  | invalidMode
deriving DecidableEq, Repr

/-- Embedding of `get_mode_parameters(mode)` from `FP_analysis.py` lines
66-76: the identifier is upper-cased, then matched against the two
supported modes; anything else raises. -/
def get_mode_parameters (mode : String) : Except ModeErr ModeParameters :=
  let m := pyUpper mode
  if m = "TE" then Except.ok ⟨2956/10000, 3087435/1000000⟩
  else if m = "TM" then Except.ok ⟨2287/10000, 3073054/1000000⟩
  else Except.error ModeErr.invalidMode

/-- Embedding of the elementwise-safe normalization
`np.divide(measured, reference, out=np.zeros_like(measured), where=reference != 0)`
from `FP_analysis.py` lines 55-56: where the reference is zero the output
keeps the prefilled 0, elsewhere it is the quotient. -/
def npDivideWhere (measured reference : List ℚ) : List ℚ :=
  List.zipWith (fun m r => if r = 0 then 0 else m / r) measured reference

/-- Relative tolerance of `np.allclose` (numpy default `rtol=1e-5`). -/
def npRtol : ℚ := 1/100000

/-- Absolute tolerance of `np.allclose` (numpy default `atol=1e-8`). -/
def npAtol : ℚ := 1/100000000

/-- Elementwise closeness test of `np.allclose`:
`|a - b| <= atol + rtol * |b|` at every index, over equal-length grids. -/
def npAllclose (x y : List ℚ) : Bool :=
  decide (x.length = y.length) &&
    (List.zipWith (fun a b => decide (|a - b| ≤ npAtol + npRtol * |b|)) x y).all id

/-- Error produced when the wavelength grids disagree (the script prints
`[ERROR] Wavelength mismatch between files.` and exits before normalizing). -/
inductive AnalysisErr where
  | gridMismatch
deriving DecidableEq, Repr

/-- Embedding of the grid check of the script followed by normalization,
`FP_analysis.py` lines 50-56: the `np.allclose` consistency check runs
first and a failure aborts, so no normalized ratio is ever produced. -/
def checkAndNormalize (wl_te p_te wl_tm p_tm wl_raw p_raw : List ℚ) :
    Except AnalysisErr (List ℚ × List ℚ) :=
  if ¬ (npAllclose wl_te wl_raw && npAllclose wl_tm wl_raw) then
    Except.error AnalysisErr.gridMismatch
  else
    Except.ok (npDivideWhere p_te p_raw, npDivideWhere p_tm p_raw)

/-- Embedding of the sweep loop of `ScanThread.run` (`scan.py` lines 93-103)
for a run with no cancellation (`_running` stays true): while the current
wavelength does not exceed the stop bound, the laser is set, the detector is
sampled (modelled by the pure measurement map `pf`), one observation is
emitted, and the wavelength advances by the step. -/
def scanLoopRun (pf : ℚ → ℚ) (stop step : ℚ) (hstep : 0 < step) (wl : ℚ) :
    List (ℚ × ℚ) :=
  if hle : wl ≤ stop then
    (wl, pf wl) :: scanLoopRun pf stop step hstep (wl + step)
  else []
termination_by (⌊(stop - wl) / step⌋ + 1).toNat
decreasing_by
  have hs : step ≠ 0 := ne_of_gt hstep
  have e1 : (stop - (wl + step)) / step = (stop - wl) / step - 1 := by
    field_simp
    ring
  have hfl : 0 ≤ ⌊(stop - wl) / step⌋ :=
    Int.floor_nonneg.mpr (div_nonneg (by linarith) hstep.le)
  rw [e1, Int.floor_sub_one]
  omega

/-- Events observable during the teardown block of `ScanThread.run`
(`scan.py` lines 110-125): attempted device calls and logged errors. -/
inductive TdEvent where
  | closeCommAttempt
  | deinitCommAttempt
  | closeLaserAttempt
  | logCommError
  | logLaserError
deriving DecidableEq, Repr

/-- State of the scan thread when teardown begins: which instrument
attributes exist (`hasattr` checks) and which close calls will raise. -/
structure TdState where
  hasComm : Bool
  hasLaser : Bool
  commCloseRaises : Bool
  commDeinitRaises : Bool
  laserCloseRaises : Bool
deriving DecidableEq, Repr, Fintype

/-- Run a straight-line sequence of calls, each tagged with whether it
raises: calls execute in order until the first raising one; the returned
flag says whether an exception is pending. -/
def runSeq : List (TdEvent × Bool) → List TdEvent × Bool
  | [] => ([], false)
  | (e, raises) :: rest =>
      if raises then ([e], true)
      else
        let r := runSeq rest
        (e :: r.1, r.2)

/-- Python `try: body except Exception: log`: the body runs until it raises,
a raise is caught and logged, and no exception ever escapes the block. -/
def tryExceptLog (body : List (TdEvent × Bool)) (logEvt : TdEvent) :
    List TdEvent × Bool :=
  let r := runSeq body
  (r.1 ++ (if r.2 then [logEvt] else []), false)

/-- Body of the first `try` of the teardown: `comm.close()` then
`comm.deinitialize()`, guarded by the hasattr check for the comm attribute. -/
def commBody (s : TdState) : List (TdEvent × Bool) :=
  if s.hasComm then
    [(TdEvent.closeCommAttempt, s.commCloseRaises),
     (TdEvent.deinitCommAttempt, s.commDeinitRaises)]
  else []

/-- Body of the second `try` of the teardown: `laser.close()`, guarded by
the hasattr check for the laser attribute. -/
def laserBody (s : TdState) : List (TdEvent × Bool) :=
  if s.hasLaser then [(TdEvent.closeLaserAttempt, s.laserCloseRaises)] else []

/-- Embedding of the whole `finally` teardown of `ScanThread.run`: the
powermeter `try` block runs first, the laser `try` block second, and the
pending-exception flag of the combined block is returned. -/
def runTeardown (s : TdState) : List TdEvent × Bool :=
  let c := tryExceptLog (commBody s) TdEvent.logCommError
  let l := tryExceptLog (laserBody s) TdEvent.logLaserError
  (c.1 ++ l.1, c.2 || l.2)

/-- Whitespace-separated token of a persisted data file: a numeric token or
a non-numeric word (on which `float()` raises). -/
inductive Token where
  | num (q : ℚ)
  | word
deriving DecidableEq, Repr

/-- One line of a persisted data file, as its whitespace-split tokens. -/
abbrev FileLine := List Token

/-- Tokens of the header line `"Wavelength (nm)\tPower (mW)"`. -/
def headerLine : FileLine := [Token.word, Token.word, Token.word, Token.word]

/-- Fixed-point formatting `f"{q:.d f}"` followed by exact re-parsing:
rounds to `d` decimal places. -/
def pyFormat (d : ℕ) (q : ℚ) : ℚ :=
  ((round (q * 10 ^ d) : ℤ) : ℚ) / 10 ^ d

/-- Data lines written by `save_data`: one line per `(wavelength, power)`
pair, `f"{wl:.3f}\t{power:.6f}"`. -/
def dataLines (xs ys : List ℚ) : List FileLine :=
  (List.zip xs ys).map
    (fun wp => [Token.num (pyFormat 3 wp.1), Token.num (pyFormat 6 wp.2)])

/-- Embedding of `PowerScanGUI.save_data` (`scan.py` lines 266-282): nothing
is written when either data list is empty; otherwise the file is a header
line followed by one line per pair, wavelength at 3 decimals and power at 6
decimals. -/
def save_data (xs ys : List ℚ) : Option (List FileLine) :=
  if xs = [] ∨ ys = [] then none
  else some (headerLine :: dataLines xs ys)

/-- Parse of one data line in `read_data`: the line must split into at least
two tokens and the first two must both parse as floats, else the line is
silently skipped. -/
def parseLine : FileLine → Option (ℚ × ℚ)
  | Token.num w :: Token.num p :: _ => some (w, p)
  | _ => none

/-- Embedding of `read_data` (`FP_analysis.py` lines 27-42): the first line
is skipped, every remaining well-formed line contributes its first two
numeric tokens, malformed lines are skipped. -/
def read_data (file : List FileLine) : List ℚ × List ℚ :=
  ((file.drop 1).filterMap parseLine).unzip

/-- Loss formula written from the wording of the spec (section 4.5): fringe contrast,
estimated reflectivity, cavity length in meters, and per-centimeter loss. -/
noncomputable def lossFormulaSpec (mean_max mean_min lam0 lam1 R n_eff : ℝ) : ℝ :=
  let K := (mean_max - mean_min) / (mean_max + mean_min)
  let R_tilde := (1 - Real.sqrt (1 - K ^ 2)) / K
  let L := lam0 ^ 2 / (2 * n_eff * (lam1 - lam0)) * 1e-9
  Real.log (R / R_tilde) / L / 100

/-- Mean of the powers selected by an index sequence, as a rational. -/
def meanAt (power : List ℚ) (idx : List ℕ) : ℚ :=
  ratMean (extract power idx)

/-- Fixture wavelength grid: the six spec maxima wavelengths (nm) plus one
extra sample carrying the minimum. -/
def wlFix : List ℚ :=
  [1549, 15492/10, 15494/10, 15496/10, 15498/10, 1550, 15501/10]

/-- Fixture powers: 1.0 at each maximum, 0.1 at the single minimum. -/
def powFix : List ℚ := [1, 1, 1, 1, 1, 1, 1/10]

/-- Fixture maxima indices. -/
def indMaxFix : List ℕ := [0, 1, 2, 3, 4, 5]

/-- Fixture minima indices. -/
def indMinFix : List ℕ := [6]

/-- Fringe contrast computed on the fixture through the embedded mean and
indexing operations. -/
def fixtureK : ℚ :=
  (meanAt powFix indMaxFix - meanAt powFix indMinFix) /
    (meanAt powFix indMaxFix + meanAt powFix indMinFix)

theorem npDivideWhere_getD (m r : List ℚ) (i : ℕ) (hi : i < m.length)
    (hlen : m.length = r.length) :
    (npDivideWhere m r).getD i 0 =
      if r.getD i 0 = 0 then 0 else m.getD i 0 / r.getD i 0 := by
  induction m generalizing r i with
  | nil => simp at hi
  | cons a m ih =>
      cases r with
      | nil => simp at hlen
      | cons b r =>
          cases i with
          | zero => simp [npDivideWhere]
          | succ i =>
              have hi' : i < m.length := by simpa using hi
              have hlen' : m.length = r.length := by simpa using hlen
              simpa [npDivideWhere] using ih r i hi' hlen'

theorem npDivideWhere_length (m r : List ℚ) (hlen : m.length = r.length) :
    (npDivideWhere m r).length = m.length := by
  simp [npDivideWhere, hlen]

/-- C5: for equal-length measured and reference spectra, normalization is
total: where the reference power is exactly 0 the normalized power is
exactly 0, and everywhere else it is the elementwise quotient. -/
theorem normalizer_total (measured reference : List ℚ)
    (hlen : measured.length = reference.length) :
    (npDivideWhere measured reference).length = measured.length ∧
    ∀ i, i < measured.length →
      (reference.getD i 0 = 0 → (npDivideWhere measured reference).getD i 0 = 0) ∧
      (reference.getD i 0 ≠ 0 →
        (npDivideWhere measured reference).getD i 0 =
          measured.getD i 0 / reference.getD i 0) := by
  refine ⟨npDivideWhere_length measured reference hlen, fun i hi => ?_⟩
  rw [npDivideWhere_getD measured reference i hi hlen]
  constructor
  · intro h0
    rw [if_pos h0]
  · intro h0
    rw [if_neg h0]

/-- Witness for C5 at a concrete spectrum pair with a zero reference sample. -/
theorem normalizer_total_witness :
    (npDivideWhere [3, 4] [0, 2]).getD 0 0 = 0 ∧
    (npDivideWhere [3, 4] [0, 2]).getD 1 0 = 2 := by
  constructor
  · exact ((normalizer_total [3, 4] [0, 2] (by decide)).2 0 (by decide)).1 (by decide)
  · have h := ((normalizer_total [3, 4] [0, 2] (by decide)).2 1 (by decide)).2 (by decide)
    rw [h]
    norm_num [List.getD]

/-- The grid comparison at index `i` fails the numpy closeness test. -/
def gridOff (x y : List ℚ) (i : ℕ) : Prop :=
  ¬ (|x.getD i 0 - y.getD i 0| ≤ npAtol + npRtol * |y.getD i 0|)

instance (x y : List ℚ) (i : ℕ) : Decidable (gridOff x y i) := by
  unfold gridOff
  infer_instance

theorem allclose_elem_false (x y : List ℚ) (i : ℕ) (hix : i < x.length)
    (hiy : i < y.length) (hv : gridOff x y i) :
    (List.zipWith (fun a b => decide (|a - b| ≤ npAtol + npRtol * |b|)) x y).all id
      = false := by
  induction x generalizing y i with
  | nil => simp at hix
  | cons a x ih =>
      cases y with
      | nil => simp at hiy
      | cons b y =>
          cases i with
          | zero =>
              have : ¬ (|a - b| ≤ npAtol + npRtol * |b|) := by
                simpa [gridOff] using hv
              simp [List.all_cons, this]
          | succ i =>
              have hix' : i < x.length := by simpa using hix
              have hiy' : i < y.length := by simpa using hiy
              have hv' : gridOff x y i := by simpa [gridOff] using hv
              simp [List.all_cons, ih y i hix' hiy' hv']

theorem npAllclose_false_of_gridOff (x y : List ℚ) (i : ℕ) (hix : i < x.length)
    (hiy : i < y.length) (hv : gridOff x y i) :
    npAllclose x y = false := by
  unfold npAllclose
  rw [allclose_elem_false x y i hix hiy hv]
  simp

/-- C6: whenever some wavelength grid entry differs from the raw grid by
more than the numpy tolerance, the analysis aborts with the grid-mismatch
error before normalizing, so no normalized ratio is produced. -/
theorem grid_mismatch_aborts (wl_te p_te wl_tm p_tm wl_raw p_raw : List ℚ)
    (hlen_te : wl_te.length = wl_raw.length)
    (hlen_tm : wl_tm.length = wl_raw.length)
    (hmis : (∃ i, i < wl_te.length ∧ gridOff wl_te wl_raw i) ∨
            (∃ i, i < wl_tm.length ∧ gridOff wl_tm wl_raw i)) :
    checkAndNormalize wl_te p_te wl_tm p_tm wl_raw p_raw
      = Except.error AnalysisErr.gridMismatch := by
  unfold checkAndNormalize
  rcases hmis with ⟨i, hi, hv⟩ | ⟨i, hi, hv⟩
  · rw [npAllclose_false_of_gridOff wl_te wl_raw i hi (hlen_te ▸ hi) hv]
    simp
  · rw [npAllclose_false_of_gridOff wl_tm wl_raw i hi (hlen_tm ▸ hi) hv]
    simp

/-- Witness for C6 on concrete single-sample grids that disagree by 1 nm. -/
theorem grid_mismatch_aborts_witness :
    checkAndNormalize [1549] [5] [1550] [6] [1550] [7]
      = Except.error AnalysisErr.gridMismatch :=
  grid_mismatch_aborts [1549] [5] [1550] [6] [1550] [7] (by decide) (by decide)
    (Or.inl ⟨0, by decide, by norm_num [gridOff, npAtol, npRtol, List.getD]⟩)

/-- C8: for every teardown state, no exception escapes the teardown block,
the trace is the powermeter block followed by the laser block (detector
session closed first, source second), each close is attempted exactly when
its instrument exists — so a failure closing one never prevents the attempt
on the other — and every raised close error is logged. -/
theorem teardown_safe : ∀ s : TdState,
    (runTeardown s).2 = false ∧
    (runTeardown s).1 = (tryExceptLog (commBody s) TdEvent.logCommError).1 ++
        (tryExceptLog (laserBody s) TdEvent.logLaserError).1 ∧
    TdEvent.closeLaserAttempt ∉ (tryExceptLog (commBody s) TdEvent.logCommError).1 ∧
    TdEvent.closeCommAttempt ∉ (tryExceptLog (laserBody s) TdEvent.logLaserError).1 ∧
    (TdEvent.closeCommAttempt ∈ (runTeardown s).1 ↔ s.hasComm = true) ∧
    (TdEvent.closeLaserAttempt ∈ (runTeardown s).1 ↔ s.hasLaser = true) ∧
    (TdEvent.logCommError ∈ (runTeardown s).1 ↔
      (s.hasComm = true ∧ (s.commCloseRaises = true ∨ s.commDeinitRaises = true))) ∧
    (TdEvent.logLaserError ∈ (runTeardown s).1 ↔
      (s.hasLaser = true ∧ s.laserCloseRaises = true)) := by
  decide

/-- C10: the mode lookup upper-cases its argument first, so any identifier
whose upper-case form is a supported mode resolves to the same record as
the upper-case form, and the lookup succeeds on it. -/
theorem mode_lookup_case_insensitive :
    ∀ s : String, pyUpper s = "TE" ∨ pyUpper s = "TM" →
      get_mode_parameters s = get_mode_parameters (pyUpper s) ∧
      ∃ p, get_mode_parameters s = Except.ok p := by
  have hTE : pyUpper "TE" = "TE" := by decide
  have hTM : pyUpper "TM" = "TM" := by decide
  intro s h
  rcases h with h | h
  · rw [h]
    refine ⟨?_, ⟨2956/10000, 3087435/1000000⟩, ?_⟩ <;>
      simp [get_mode_parameters, h, hTE]
  · rw [h]
    refine ⟨?_, ⟨2287/10000, 3073054/1000000⟩, ?_⟩ <;>
      simp [get_mode_parameters, h, hTM]

/-- Witness for C10 at the lower-case identifier `"te"`. -/
theorem mode_lookup_case_insensitive_witness :
    get_mode_parameters "te" = get_mode_parameters (pyUpper "te") :=
  (mode_lookup_case_insensitive "te" (Or.inl (by decide))).1

/-- Counterexample to C9 as stated: `"te"` is a mode identifier different
from both `"TE"` and `"TM"`, yet the lookup does not raise — it returns the
TE record. -/
theorem mode_lookup_c9_counterexample :
    ("te" : String) ≠ "TE" ∧ ("te" : String) ≠ "TM" ∧
    get_mode_parameters "te" = Except.ok ⟨2956/10000, 3087435/1000000⟩ := by
  refine ⟨by decide, by decide, ?_⟩
  simp [get_mode_parameters, show pyUpper "te" = "TE" by decide]

/-- C9 amended: the lookup maps `"TE"` and `"TM"` to their records, raises
exactly when the upper-cased identifier is neither `"TE"` nor `"TM"`, and no
outcome other than the two records or the error is possible. -/
theorem mode_lookup_table :
    get_mode_parameters "TE" = Except.ok ⟨2956/10000, 3087435/1000000⟩ ∧
    get_mode_parameters "TM" = Except.ok ⟨2287/10000, 3073054/1000000⟩ ∧
    (∀ s : String, pyUpper s ≠ "TE" → pyUpper s ≠ "TM" →
      get_mode_parameters s = Except.error ModeErr.invalidMode) ∧
    (∀ s : String,
      get_mode_parameters s = Except.ok ⟨2956/10000, 3087435/1000000⟩ ∨
      get_mode_parameters s = Except.ok ⟨2287/10000, 3073054/1000000⟩ ∨
      get_mode_parameters s = Except.error ModeErr.invalidMode) := by
  refine ⟨?_, ?_, ?_, ?_⟩
  · simp [get_mode_parameters, show pyUpper "TE" = "TE" by decide]
  · simp [get_mode_parameters, show pyUpper "TM" = "TM" by decide]
  · intro s h1 h2
    simp [get_mode_parameters, h1, h2]
  · intro s
    by_cases h1 : pyUpper s = "TE"
    · left
      simp [get_mode_parameters, h1]
    · by_cases h2 : pyUpper s = "TM"
      · right
        left
        simp [get_mode_parameters, h1, h2]
      · right
        right
        simp [get_mode_parameters, h1, h2]

/-- Witness for the amended C9 at the unsupported identifier `"tem"`. -/
theorem mode_lookup_table_witness :
    get_mode_parameters "tem" = Except.error ModeErr.invalidMode :=
  mode_lookup_table.2.2.1 "tem" (by decide) (by decide)

theorem pyFormat_close (d : ℕ) (q : ℚ) : |pyFormat d q - q| ≤ 1 / (2 * 10 ^ d) := by
  have h10 : (0:ℚ) < 10 ^ d := by positivity
  have hr : |q * 10 ^ d - round (q * 10 ^ d)| ≤ 1 / 2 := abs_sub_round (q * 10 ^ d)
  have e : pyFormat d q - q = (((round (q * 10 ^ d) : ℤ) : ℚ) - q * 10 ^ d) / 10 ^ d := by
    field_simp [pyFormat]
    ring
  rw [e, abs_div, abs_of_pos h10, div_le_div_iff₀ h10 (by positivity)]
  have hr' : |((round (q * 10 ^ d) : ℤ) : ℚ) - q * 10 ^ d| ≤ 1 / 2 := by
    rw [abs_sub_comm]
    exact hr
  calc |((round (q * 10 ^ d) : ℤ) : ℚ) - q * 10 ^ d| * (2 * 10 ^ d)
      ≤ (1 / 2) * (2 * 10 ^ d) := by
        apply mul_le_mul_of_nonneg_right hr' (by positivity)
    _ = 1 * 10 ^ d := by ring

theorem unzip_zip_map (f g : ℚ → ℚ) (xs ys : List ℚ) (h : xs.length = ys.length) :
    ((List.zip xs ys).map (fun wp => (f wp.1, g wp.2))).unzip = (xs.map f, ys.map g) := by
  induction xs generalizing ys with
  | nil =>
      cases ys with
      | nil => rfl
      | cons b ys => simp at h
  | cons a xs ih =>
      cases ys with
      | nil => simp at h
      | cons b ys =>
          have h' : xs.length = ys.length := by simpa using h
          simp [List.zip_cons_cons, ih ys h']

theorem read_dataLines (xs ys : List ℚ) (h : xs.length = ys.length) :
    read_data (headerLine :: dataLines xs ys)
      = (xs.map (pyFormat 3), ys.map (pyFormat 6)) := by
  unfold read_data dataLines
  have hdrop : (headerLine :: dataLines xs ys).drop 1 = dataLines xs ys := rfl
  simp only [List.drop_succ_cons, List.drop_zero, List.filterMap_map]
  have hcomp : (parseLine ∘ fun wp : ℚ × ℚ =>
      [Token.num (pyFormat 3 wp.1), Token.num (pyFormat 6 wp.2)])
      = (fun wp : ℚ × ℚ => some (pyFormat 3 wp.1, pyFormat 6 wp.2)) := by
    funext wp
    rfl
  rw [hcomp]
  have hsome : (fun wp : ℚ × ℚ => some (pyFormat 3 wp.1, pyFormat 6 wp.2))
      = some ∘ (fun wp : ℚ × ℚ => (pyFormat 3 wp.1, pyFormat 6 wp.2)) := rfl
  rw [hsome, List.filterMap_eq_map]
  exact unzip_zip_map (pyFormat 3) (pyFormat 6) xs ys h

/-- C7: writing a non-empty spectrum to the persisted two-column format and
reading it back yields the original pairs with each wavelength rounded to 3
decimal places and each power to 6, hence within half an ulp of the stated
formatting precision of the original values. -/
theorem spectrum_roundtrip (xs ys : List ℚ) (hx : xs ≠ []) (hy : ys ≠ [])
    (hlen : xs.length = ys.length) :
    save_data xs ys = some (headerLine :: dataLines xs ys) ∧
    read_data (headerLine :: dataLines xs ys)
      = (xs.map (pyFormat 3), ys.map (pyFormat 6)) ∧
    (∀ q : ℚ, |pyFormat 3 q - q| ≤ 1 / 2000 ∧ |pyFormat 6 q - q| ≤ 1 / 2000000) := by
  refine ⟨?_, read_dataLines xs ys hlen, fun q => ⟨?_, ?_⟩⟩
  · unfold save_data
    rw [if_neg (by tauto)]
  · have := pyFormat_close 3 q
    norm_num at this ⊢
    linarith
  · have := pyFormat_close 6 q
    norm_num at this ⊢
    linarith

/-- Witness for C7 on the two-point spectrum `[(1, 2), (3/2, 1/3)]`. -/
theorem spectrum_roundtrip_witness :
    read_data (headerLine :: dataLines [1, 3/2] [2, 1/3])
      = ([1, 3/2].map (pyFormat 3), [2, 1/3].map (pyFormat 6)) :=
  (spectrum_roundtrip [1, 3/2] [2, 1/3] (by decide) (by decide) (by decide)).2.1

theorem scanLoopRun_rep (pf : ℚ → ℚ) (stop step : ℚ) (h : 0 < step) :
    ∀ N : ℕ, ∀ wl : ℚ, wl ≤ stop → (⌊(stop - wl) / step⌋).toNat = N →
      scanLoopRun pf stop step h wl =
        (List.range (N + 1)).map
          (fun i : ℕ => (wl + (i : ℚ) * step, pf (wl + (i : ℚ) * step))) := by
  intro N
  induction N with
  | zero =>
      intro wl hle hN
      rw [scanLoopRun, dif_pos hle]
      have hnot : ¬ (wl + step ≤ stop) := by
        intro hc
        have h1 : (1:ℚ) ≤ (stop - wl) / step := by
          rw [le_div_iff₀ h]
          linarith
        have h2 : (1:ℤ) ≤ ⌊(stop - wl) / step⌋ := Int.le_floor.mpr (by exact_mod_cast h1)
        omega
      rw [scanLoopRun, dif_neg hnot]
      have hr1 : List.range 1 = [0] := rfl
      rw [hr1]
      simp
  | succ n ih =>
      intro wl hle hN
      have h2 : (1:ℤ) ≤ ⌊(stop - wl) / step⌋ := by omega
      have h3 : (1:ℚ) ≤ (stop - wl) / step := by exact_mod_cast Int.le_floor.mp h2
      have hnext : wl + step ≤ stop := by
        rw [le_div_iff₀ h] at h3
        linarith
      have hN' : (⌊(stop - (wl + step)) / step⌋).toNat = n := by
        have e1 : (stop - (wl + step)) / step = (stop - wl) / step - 1 := by
          field_simp
          ring
        rw [e1, Int.floor_sub_one]
        omega
      rw [scanLoopRun, dif_pos hle, ih (wl + step) hnext hN']
      conv_rhs => rw [List.range_succ_eq_map]
      simp only [List.map_cons, List.map_map]
      congr 1
      · norm_num
      · apply List.map_congr_left
        intro i _
        have harith : wl + step + (i : ℚ) * step = wl + ((i : ℚ) + 1) * step := by ring
        simp only [Function.comp_apply]
        push_cast
        rw [harith]

/-- C2: for every configuration with `start < stop` and `step > 0`, an
uncancelled sweep emits exactly `floor((stop - start)/step) + 1`
observations, one at each grid wavelength `start + i * step` in order, and
the emitted wavelengths are strictly increasing, so no grid point is
duplicated or skipped. -/
theorem scan_grid_complete (pf : ℚ → ℚ) (start stop step : ℚ)
    (h1 : start < stop) (h2 : 0 < step) :
    scanLoopRun pf stop step h2 start =
      (List.range ((⌊(stop - start) / step⌋).toNat + 1)).map
        (fun i : ℕ => (start + (i : ℚ) * step, pf (start + (i : ℚ) * step))) ∧
    (scanLoopRun pf stop step h2 start).length
      = (⌊(stop - start) / step⌋).toNat + 1 ∧
    ((scanLoopRun pf stop step h2 start).map Prod.fst).Pairwise (· < ·) := by
  have hrep := scanLoopRun_rep pf stop step h2 ((⌊(stop - start) / step⌋).toNat)
    start h1.le rfl
  refine ⟨hrep, ?_, ?_⟩
  · rw [hrep]
    simp
  · rw [hrep, List.map_map]
    have hfst : (Prod.fst ∘ fun i : ℕ => (start + (i : ℚ) * step, pf (start + (i : ℚ) * step)))
        = fun i : ℕ => start + (i : ℚ) * step := rfl
    rw [hfst, List.pairwise_map]
    apply (List.pairwise_lt_range _).imp
    intro i j hij
    have hc : (i : ℚ) < (j : ℚ) := by exact_mod_cast hij
    have := mul_lt_mul_of_pos_right hc h2
    linarith

/-- Witness for C2: sweeping from 0 to 1 in steps of 1/2 emits three
observations. -/
theorem scan_grid_complete_witness :
    (scanLoopRun (fun _ => 0) 1 (1/2) (by norm_num) 0).length
      = (⌊((1:ℚ) - 0) / (1/2)⌋).toNat + 1 :=
  (scan_grid_complete (fun _ => 0) 0 1 (1/2) (by norm_num) (by norm_num)).2.1

/-- Fringe-contrast node of the loss computation,
`K = (mean_max - mean_min) / (mean_max + mean_min)` over numpy scalars. -/
noncomputable def contrastNp (mean_max mean_min : NpVal) : NpVal :=
  NpVal.div (NpVal.sub mean_max mean_min) (NpVal.add mean_max mean_min)

/-- Estimated-reflectivity node, `R_tilde = (1 - sqrt(1 - K**2)) / K`. -/
noncomputable def rtildeNp (mean_max mean_min : NpVal) : NpVal :=
  NpVal.div
    (NpVal.sub (NpVal.fin 1)
      (NpVal.sqrt (NpVal.sub (NpVal.fin 1)
        (NpVal.mul (contrastNp mean_max mean_min) (contrastNp mean_max mean_min)))))
    (contrastNp mean_max mean_min)

/-- Value computed by the tail of `calculate_loss` once indexing has
succeeded: the loss in cm⁻¹ as a numpy scalar, from the first two maxima
wavelengths and the two extrema means. -/
noncomputable def lossArithNp (a0 a1 : ℚ) (mean_max mean_min : NpVal)
    (R n_eff : ℚ) : NpVal :=
  NpVal.div
    (NpVal.div
      (NpVal.log (NpVal.div (NpVal.fin ((R : ℚ) : ℝ)) (rtildeNp mean_max mean_min)))
      (NpVal.mul
        (NpVal.div (NpVal.fin ((a0 ^ 2 : ℚ) : ℝ))
          (NpVal.fin ((2 * n_eff * (a1 - a0) : ℚ) : ℝ)))
        (NpVal.fin ((1e-9 : ℚ) : ℝ))))
    (NpVal.fin ((1e2 : ℚ) : ℝ))

theorem NpVal.add_fin (x y : ℝ) :
    NpVal.add (NpVal.fin x) (NpVal.fin y) = NpVal.fin (x + y) := rfl

theorem NpVal.sub_fin (x y : ℝ) :
    NpVal.sub (NpVal.fin x) (NpVal.fin y) = NpVal.fin (x - y) := rfl

theorem NpVal.mul_fin (x y : ℝ) :
    NpVal.mul (NpVal.fin x) (NpVal.fin y) = NpVal.fin (x * y) := rfl

theorem NpVal.div_fin (x y : ℝ) (h : y ≠ 0) :
    NpVal.div (NpVal.fin x) (NpVal.fin y) = NpVal.fin (x / y) := by
  simp [NpVal.div, h]

theorem NpVal.div_zero_zero :
    NpVal.div (NpVal.fin 0) (NpVal.fin 0) = NpVal.nan := by
  simp [NpVal.div]

theorem NpVal.div_pos_zero (x : ℝ) (h : 0 < x) :
    NpVal.div (NpVal.fin x) (NpVal.fin 0) = NpVal.pinf := by
  simp [NpVal.div, ne_of_gt h, h]

theorem NpVal.div_neg_zero (x : ℝ) (h : x < 0) :
    NpVal.div (NpVal.fin x) (NpVal.fin 0) = NpVal.ninf := by
  simp [NpVal.div, ne_of_lt h, not_lt.mpr h.le]

theorem NpVal.sqrt_fin (x : ℝ) (h : 0 ≤ x) :
    NpVal.sqrt (NpVal.fin x) = NpVal.fin (Real.sqrt x) := by
  simp [NpVal.sqrt, h]

theorem NpVal.sqrt_fin_neg (x : ℝ) (h : x < 0) :
    NpVal.sqrt (NpVal.fin x) = NpVal.nan := by
  simp [NpVal.sqrt, not_le.mpr h]

theorem NpVal.sqrt_nan : NpVal.sqrt NpVal.nan = NpVal.nan := rfl

theorem NpVal.sqrt_ninf : NpVal.sqrt NpVal.ninf = NpVal.nan := rfl

theorem NpVal.log_fin_pos (x : ℝ) (h : 0 < x) :
    NpVal.log (NpVal.fin x) = NpVal.fin (Real.log x) := by
  simp [NpVal.log, h]

theorem NpVal.log_nan : NpVal.log NpVal.nan = NpVal.nan := rfl

theorem NpVal.mul_pinf_pinf : NpVal.mul NpVal.pinf NpVal.pinf = NpVal.pinf := rfl

theorem NpVal.mul_ninf_ninf : NpVal.mul NpVal.ninf NpVal.ninf = NpVal.pinf := rfl

theorem NpVal.sub_fin_pinf (x : ℝ) :
    NpVal.sub (NpVal.fin x) NpVal.pinf = NpVal.ninf := rfl

theorem npMean_nil : npMean [] = NpVal.nan := by
  simp [npMean]

theorem npMean_nonempty (xs : List ℚ) (h : xs ≠ []) :
    npMean xs = NpVal.fin ((ratMean xs : ℚ) : ℝ) := by
  simp [npMean, h]

theorem calculate_loss_ok_general (wl power : List ℚ) (ind_max ind_min : List ℕ)
    (R n_eff : ℚ)
    (hw1 : ∀ i ∈ ind_max, i < wl.length) (hw2 : ∀ i ∈ ind_min, i < wl.length)
    (hp1 : ∀ i ∈ ind_max, i < power.length) (hp2 : ∀ i ∈ ind_min, i < power.length)
    (h6 : 6 ≤ ind_max.length) :
    calculate_loss wl power ind_max ind_min R n_eff
      = Except.ok (lossArithNp ((extract wl ind_max).getD 0 0)
          ((extract wl ind_max).getD 1 0)
          (npMean (extract power ind_max)) (npMean (extract power ind_min))
          R n_eff) := by
  have hlen : (extract wl ind_max).length = ind_max.length := extract_length _ _
  have h5 : 5 < (extract wl ind_max).length := by omega
  have h4 : 4 < (extract wl ind_max).length := by omega
  have h0 : 0 < (extract wl ind_max).length := by omega
  have h1 : 1 < (extract wl ind_max).length := by omega
  unfold calculate_loss
  rw [fancyIndex_ok wl ind_max hw1, fancyIndex_ok wl ind_min hw2,
      fancyIndex_ok power ind_max hp1, fancyIndex_ok power ind_min hp2]
  simp only [bind, Except.bind]
  rw [pyGet_ok _ 5 h5, pyGet_ok _ 4 h4, pyGet_ok _ 0 h0, pyGet_ok _ 1 h1]
  simp only [pure, Except.pure, lossArithNp, rtildeNp, contrastNp]

theorem calculate_loss_err_of_short (wl power : List ℚ) (ind_max ind_min : List ℕ)
    (R n_eff : ℚ)
    (hw1 : ∀ i ∈ ind_max, i < wl.length) (hw2 : ∀ i ∈ ind_min, i < wl.length)
    (hp1 : ∀ i ∈ ind_max, i < power.length) (hp2 : ∀ i ∈ ind_min, i < power.length)
    (h6 : ind_max.length < 6) :
    calculate_loss wl power ind_max ind_min R n_eff
      = Except.error PyErr.indexError := by
  have hlen : (extract wl ind_max).length = ind_max.length := extract_length _ _
  have h5 : ¬ 5 < (extract wl ind_max).length := by omega
  unfold calculate_loss
  rw [fancyIndex_ok wl ind_max hw1, fancyIndex_ok wl ind_min hw2,
      fancyIndex_ok power ind_max hp1, fancyIndex_ok power ind_min hp2]
  simp only [bind, Except.bind]
  rw [pyGet_err _ 5 h5]

theorem contrast_nan_right (mean_max : NpVal) :
    contrastNp mean_max NpVal.nan = NpVal.nan := by
  unfold contrastNp
  rw [NpVal.sub_nan_right, NpVal.add_nan_right, NpVal.div_nan_left]

theorem rtilde_nan_of_contrast_nan (mean_max mean_min : NpVal)
    (h : contrastNp mean_max mean_min = NpVal.nan) :
    rtildeNp mean_max mean_min = NpVal.nan := by
  unfold rtildeNp
  rw [h, NpVal.mul_nan_left, NpVal.sub_nan_right, NpVal.sqrt_nan, NpVal.sub_nan_right,
    NpVal.div_nan_left]

theorem rtilde_nan_of_contrast_pinf (mean_max mean_min : NpVal)
    (h : contrastNp mean_max mean_min = NpVal.pinf) :
    rtildeNp mean_max mean_min = NpVal.nan := by
  unfold rtildeNp
  rw [h, NpVal.mul_pinf_pinf, NpVal.sub_fin_pinf, NpVal.sqrt_ninf, NpVal.sub_nan_right,
    NpVal.div_nan_left]

theorem rtilde_nan_of_contrast_ninf (mean_max mean_min : NpVal)
    (h : contrastNp mean_max mean_min = NpVal.ninf) :
    rtildeNp mean_max mean_min = NpVal.nan := by
  unfold rtildeNp
  rw [h, NpVal.mul_ninf_ninf, NpVal.sub_fin_pinf, NpVal.sqrt_ninf, NpVal.sub_nan_right,
    NpVal.div_nan_left]

theorem lossArithNp_nan_of_rtilde_nan (a0 a1 : ℚ) (mean_max mean_min : NpVal)
    (R n_eff : ℚ) (h : rtildeNp mean_max mean_min = NpVal.nan) :
    lossArithNp a0 a1 mean_max mean_min R n_eff = NpVal.nan := by
  unfold lossArithNp
  rw [h, NpVal.div_nan_right, NpVal.log_nan, NpVal.div_nan_left, NpVal.div_nan_left]

/-- C3 amended: with all extrema indices in bounds, `calculate_loss` raises
an error exactly when the maxima sequence has fewer than 6 entries — and the
error is the plain `IndexError` from `loc_max[5]`, the code defines no
`InsufficientFringes`; in particular an empty minima sequence raises
nothing. -/
theorem calculate_loss_error_iff (wl power : List ℚ) (ind_max ind_min : List ℕ)
    (R n_eff : ℚ)
    (hw1 : ∀ i ∈ ind_max, i < wl.length) (hw2 : ∀ i ∈ ind_min, i < wl.length)
    (hp1 : ∀ i ∈ ind_max, i < power.length) (hp2 : ∀ i ∈ ind_min, i < power.length) :
    calculate_loss wl power ind_max ind_min R n_eff = Except.error PyErr.indexError
      ↔ ind_max.length < 6 := by
  constructor
  · intro hv
    by_contra h6
    rw [calculate_loss_ok_general wl power ind_max ind_min R n_eff
      hw1 hw2 hp1 hp2 (by omega)] at hv
    exact Except.noConfusion hv
  · intro h6
    exact calculate_loss_err_of_short wl power ind_max ind_min R n_eff hw1 hw2 hp1 hp2 h6

/-- Witness for the amended C3: five maxima raise the index error, six do
not. -/
theorem calculate_loss_error_iff_witness :
    calculate_loss wlFix powFix [0, 1, 2, 3, 4] indMinFix (2287/10000) (3073054/1000000)
      = Except.error PyErr.indexError :=
  (calculate_loss_error_iff wlFix powFix [0, 1, 2, 3, 4] indMinFix (2287/10000)
    (3073054/1000000) (by decide) (by decide) (by decide) (by decide)).mpr (by decide)

/-- Counterexample to C3 as stated: with six in-bounds maxima and an empty
minima sequence the claim demands `InsufficientFringes`, but the code raises
nothing — `np.mean` of the empty slice is NaN and the call returns a NaN
loss. -/
theorem insufficient_fringes_counterexample :
    calculate_loss wlFix powFix indMaxFix [] (2287/10000) (3073054/1000000)
      = Except.ok NpVal.nan := by
  rw [calculate_loss_ok_general wlFix powFix indMaxFix [] (2287/10000) (3073054/1000000)
    (by decide) (by simp) (by decide) (by simp) (by decide)]
  have hempty : extract powFix ([] : List ℕ) = [] := rfl
  rw [hempty, npMean_nil,
    lossArithNp_nan_of_rtilde_nan _ _ _ _ _ _
      (rtilde_nan_of_contrast_nan _ _ (contrast_nan_right _))]

theorem rtilde_nan_of_contrast_zero (mean_max mean_min : NpVal)
    (h : contrastNp mean_max mean_min = NpVal.fin 0) :
    rtildeNp mean_max mean_min = NpVal.nan := by
  unfold rtildeNp
  rw [h, NpVal.mul_fin, NpVal.sub_fin, NpVal.sqrt_fin _ (by norm_num), NpVal.sub_fin]
  norm_num [Real.sqrt_one, NpVal.div_zero_zero]

theorem rtilde_nan_of_contrast_big (mean_max mean_min : NpVal) (k : ℝ)
    (hk : 1 < |k|) (h : contrastNp mean_max mean_min = NpVal.fin k) :
    rtildeNp mean_max mean_min = NpVal.nan := by
  have hkk : 1 < k * k := by nlinarith [abs_mul_abs_self k, hk]
  unfold rtildeNp
  rw [h, NpVal.mul_fin, NpVal.sub_fin, NpVal.sqrt_fin_neg _ (by linarith),
    NpVal.sub_nan_right, NpVal.div_nan_left]

theorem rtilde_nan_of_degenerate (mm mn : ℝ)
    (hdeg : mm + mn = 0 ∨ (mm - mn) / (mm + mn) = 0 ∨
      1 < |(mm - mn) / (mm + mn)|) :
    rtildeNp (NpVal.fin mm) (NpVal.fin mn) = NpVal.nan := by
  by_cases hs : mm + mn = 0
  · rcases lt_trichotomy (mm - mn) 0 with hd | hd | hd
    · apply rtilde_nan_of_contrast_ninf
      unfold contrastNp
      rw [NpVal.sub_fin, NpVal.add_fin, hs]
      exact NpVal.div_neg_zero _ hd
    · apply rtilde_nan_of_contrast_nan
      unfold contrastNp
      rw [NpVal.sub_fin, NpVal.add_fin, hs, hd]
      exact NpVal.div_zero_zero
    · apply rtilde_nan_of_contrast_pinf
      unfold contrastNp
      rw [NpVal.sub_fin, NpVal.add_fin, hs]
      exact NpVal.div_pos_zero _ hd
  · have hK : contrastNp (NpVal.fin mm) (NpVal.fin mn)
        = NpVal.fin ((mm - mn) / (mm + mn)) := by
      unfold contrastNp
      rw [NpVal.sub_fin, NpVal.add_fin, NpVal.div_fin _ _ hs]
    rcases hdeg with hsum | hK0 | hKbig
    · exact absurd hsum hs
    · apply rtilde_nan_of_contrast_zero
      rw [hK, hK0]
    · exact rtilde_nan_of_contrast_big _ _ _ hKbig hK

theorem extract_ne_nil_of_ne_nil (xs : List ℚ) (idx : List ℕ) (h : idx ≠ []) :
    extract xs idx ≠ [] := by
  cases idx with
  | nil => exact absurd rfl h
  | cons i rest => simp [extract]

theorem extract_ne_nil_of_six (xs : List ℚ) (idx : List ℕ) (h : 6 ≤ idx.length) :
    extract xs idx ≠ [] := by
  apply extract_ne_nil_of_ne_nil
  intro hc
  rw [hc] at h
  simp at h

/-- C4 amended: when the extrema means make the fringe contrast degenerate —
`mean_max + mean_min = 0`, or `K = 0`, or `|K| > 1` — the loss computation
raises nothing at all (the code has no `DegenerateContrast` guard): it
returns normally and the returned loss is NaN. -/
theorem degenerate_contrast_returns_nan (wl power : List ℚ)
    (ind_max ind_min : List ℕ) (R n_eff : ℚ)
    (hw1 : ∀ i ∈ ind_max, i < wl.length) (hw2 : ∀ i ∈ ind_min, i < wl.length)
    (hp1 : ∀ i ∈ ind_max, i < power.length) (hp2 : ∀ i ∈ ind_min, i < power.length)
    (h6 : 6 ≤ ind_max.length) (hmin : ind_min ≠ [])
    (hdeg : meanAt power ind_max + meanAt power ind_min = 0 ∨
      (meanAt power ind_max - meanAt power ind_min) /
          (meanAt power ind_max + meanAt power ind_min) = 0 ∨
      1 < |(meanAt power ind_max - meanAt power ind_min) /
          (meanAt power ind_max + meanAt power ind_min)|) :
    calculate_loss wl power ind_max ind_min R n_eff = Except.ok NpVal.nan := by
  rw [calculate_loss_ok_general wl power ind_max ind_min R n_eff hw1 hw2 hp1 hp2 h6]
  rw [npMean_nonempty _ (extract_ne_nil_of_six power ind_max h6),
    npMean_nonempty _ (extract_ne_nil_of_ne_nil power ind_min hmin)]
  congr 1
  apply lossArithNp_nan_of_rtilde_nan
  apply rtilde_nan_of_degenerate
  simp only [meanAt] at hdeg
  rcases hdeg with hsum | hK0 | hKbig
  · left
    exact_mod_cast hsum
  · right
    left
    exact_mod_cast hK0
  · right
    right
    exact_mod_cast hKbig

/-- Fixture powers making the contrast degenerate: the maxima mean is 1 and
the minima mean is -1, so `mean_max + mean_min = 0`. -/
def powDegFix : List ℚ := [1, 1, 1, 1, 1, 1, -1]

/-- Witness for the amended C4 at the degenerate fixture. -/
theorem degenerate_contrast_returns_nan_witness :
    calculate_loss wlFix powDegFix indMaxFix indMinFix (2287/10000) (3073054/1000000)
      = Except.ok NpVal.nan :=
  degenerate_contrast_returns_nan wlFix powDegFix indMaxFix indMinFix
    (2287/10000) (3073054/1000000) (by decide) (by decide) (by decide) (by decide)
    (by decide) (by decide)
    (Or.inl (by norm_num [meanAt, ratMean, extract, powDegFix, indMaxFix, indMinFix]))

/-- Counterexample to C4 as stated: on a spectrum whose extrema means sum to
zero the claim demands a `DegenerateContrast` error instead of NaN, yet the
code returns normally with a NaN loss. -/
theorem degenerate_contrast_counterexample :
    meanAt powDegFix indMaxFix + meanAt powDegFix indMinFix = 0 ∧
    calculate_loss wlFix powDegFix indMaxFix indMinFix (2287/10000) (3073054/1000000)
      = Except.ok NpVal.nan := by
  constructor
  · norm_num [meanAt, ratMean, extract, powDegFix, indMaxFix, indMinFix]
  · rw [calculate_loss_ok_general wlFix powDegFix indMaxFix indMinFix
      (2287/10000) (3073054/1000000) (by decide) (by decide) (by decide) (by decide)
      (by decide)]
    rw [npMean_nonempty _ (extract_ne_nil_of_six powDegFix indMaxFix (by decide)),
      npMean_nonempty _ (extract_ne_nil_of_ne_nil powDegFix indMinFix (by decide))]
    congr 1
    apply lossArithNp_nan_of_rtilde_nan
    apply rtilde_nan_of_degenerate
    left
    push_cast [ratMean, extract, powDegFix, indMaxFix, indMinFix]
    norm_num

theorem lossArithNp_good (a0 a1 mm mn R n_eff : ℚ)
    (hK0 : 0 < (mm - mn) / (mm + mn)) (hK1 : (mm - mn) / (mm + mn) < 1)
    (hR : 0 < R) (hne : n_eff ≠ 0) (ha0 : a0 ≠ 0) (ha10 : a1 ≠ a0) :
    lossArithNp a0 a1 (NpVal.fin ((mm : ℚ) : ℝ)) (NpVal.fin ((mn : ℚ) : ℝ)) R n_eff
      = NpVal.fin (lossFormulaSpec ((mm : ℚ) : ℝ) ((mn : ℚ) : ℝ) ((a0 : ℚ) : ℝ)
          ((a1 : ℚ) : ℝ) ((R : ℚ) : ℝ) ((n_eff : ℚ) : ℝ)) := by
  have hsumQ : mm + mn ≠ 0 := by
    intro hc
    rw [hc, div_zero] at hK0
    exact lt_irrefl 0 hK0
  have hsumR : ((mm : ℚ) : ℝ) + ((mn : ℚ) : ℝ) ≠ 0 := by exact_mod_cast hsumQ
  unfold lossArithNp rtildeNp contrastNp
  rw [NpVal.sub_fin, NpVal.add_fin, NpVal.div_fin _ _ hsumR]
  set K : ℝ := (((mm : ℚ) : ℝ) - ((mn : ℚ) : ℝ)) / (((mm : ℚ) : ℝ) + ((mn : ℚ) : ℝ))
    with hKdef
  have hKcast : K = (((mm - mn) / (mm + mn) : ℚ) : ℝ) := by
    rw [hKdef]
    push_cast
    ring
  have hK0R : 0 < K := by
    rw [hKcast]
    exact_mod_cast hK0
  have hK1R : K < 1 := by
    rw [hKcast]
    exact_mod_cast hK1
  have hKne : K ≠ 0 := ne_of_gt hK0R
  have hKK1 : K * K < 1 := by nlinarith
  have h1m : (0:ℝ) ≤ 1 - K * K := by linarith
  have hsqrt_lt : Real.sqrt (1 - K * K) < 1 := by
    have h2 : (1 - K * K : ℝ) < 1 := by nlinarith
    calc Real.sqrt (1 - K * K) < Real.sqrt 1 := Real.sqrt_lt_sqrt h1m h2
      _ = 1 := Real.sqrt_one
  have hnum_pos : (0:ℝ) < 1 - Real.sqrt (1 - K * K) := by linarith
  have hRt_pos : (0:ℝ) < (1 - Real.sqrt (1 - K * K)) / K := div_pos hnum_pos hK0R
  have hRt_ne : (1 - Real.sqrt (1 - K * K)) / K ≠ 0 := ne_of_gt hRt_pos
  have hRR : (0:ℝ) < ((R : ℚ) : ℝ) := by exact_mod_cast hR
  have hfrac_pos : (0:ℝ) < ((R : ℚ) : ℝ) / ((1 - Real.sqrt (1 - K * K)) / K) :=
    div_pos hRR hRt_pos
  have hdenQ : (2 * n_eff * (a1 - a0) : ℚ) ≠ 0 :=
    mul_ne_zero (mul_ne_zero two_ne_zero hne) (sub_ne_zero.mpr ha10)
  have hdenR : ((2 * n_eff * (a1 - a0) : ℚ) : ℝ) ≠ 0 := by exact_mod_cast hdenQ
  have ha0sq : ((a0 ^ 2 : ℚ) : ℝ) ≠ 0 := by
    exact_mod_cast pow_ne_zero 2 ha0
  have hLne : ((a0 ^ 2 : ℚ) : ℝ) / ((2 * n_eff * (a1 - a0) : ℚ) : ℝ)
      * ((1e-9 : ℚ) : ℝ) ≠ 0 := by
    apply mul_ne_zero (div_ne_zero ha0sq hdenR)
    norm_num
  rw [NpVal.mul_fin, NpVal.sub_fin, NpVal.sqrt_fin _ h1m, NpVal.sub_fin,
    NpVal.div_fin _ _ hKne, NpVal.div_fin _ _ hRt_ne,
    NpVal.log_fin_pos _ hfrac_pos, NpVal.div_fin _ _ hdenR, NpVal.mul_fin,
    NpVal.div_fin _ _ hLne, NpVal.div_fin _ _ (by norm_num : ((1e2 : ℚ) : ℝ) ≠ 0)]
  congr 1
  simp only [lossFormulaSpec]
  rw [← hKdef, show K ^ 2 = K * K from sq K]
  push_cast
  norm_num

/-- C1: under the stated preconditions (six in-bounds maxima, non-empty
minima, fringe contrast strictly inside the unit interval, positive `R`,
non-zero `n_eff`, distinct first two maxima wavelengths), `calculate_loss`
returns exactly the spec formula: `K` from the extrema power means,
`R_tilde = (1 - sqrt(1 - K^2))/K`, cavity length
`L = lam0^2 / (2 n_eff (lam1 - lam0)) * 1e-9` meters, and
`loss = ln(R/R_tilde)/L` divided by 100; and on the fixture with
`mean_max = 1.0`, `mean_min = 0.1`, the contrast K is 0.8182 to four
decimal places. -/
theorem calculate_loss_formula :
    (∀ (wl power : List ℚ) (ind_max ind_min : List ℕ) (R n_eff : ℚ),
      (∀ i ∈ ind_max, i < wl.length) → (∀ i ∈ ind_min, i < wl.length) →
      (∀ i ∈ ind_max, i < power.length) → (∀ i ∈ ind_min, i < power.length) →
      6 ≤ ind_max.length → ind_min ≠ [] →
      0 < (meanAt power ind_max - meanAt power ind_min) /
          (meanAt power ind_max + meanAt power ind_min) →
      (meanAt power ind_max - meanAt power ind_min) /
          (meanAt power ind_max + meanAt power ind_min) < 1 →
      0 < R → n_eff ≠ 0 → (extract wl ind_max).getD 0 0 ≠ 0 →
      (extract wl ind_max).getD 1 0 ≠ (extract wl ind_max).getD 0 0 →
      calculate_loss wl power ind_max ind_min R n_eff
        = Except.ok (NpVal.fin (lossFormulaSpec
            ((meanAt power ind_max : ℚ) : ℝ) ((meanAt power ind_min : ℚ) : ℝ)
            (((extract wl ind_max).getD 0 0 : ℚ) : ℝ)
            (((extract wl ind_max).getD 1 0 : ℚ) : ℝ)
            ((R : ℚ) : ℝ) ((n_eff : ℚ) : ℝ)))) ∧
    |fixtureK - 8182/10000| ≤ 1/20000 := by
  constructor
  · intro wl power ind_max ind_min R n_eff hw1 hw2 hp1 hp2 h6 hmin hK0 hK1 hR hne
      ha0 ha10
    rw [calculate_loss_ok_general wl power ind_max ind_min R n_eff hw1 hw2 hp1 hp2 h6]
    rw [npMean_nonempty _ (extract_ne_nil_of_six power ind_max h6),
      npMean_nonempty _ (extract_ne_nil_of_ne_nil power ind_min hmin)]
    congr 1
    exact lossArithNp_good _ _ _ _ R n_eff hK0 hK1 hR hne ha0 ha10
  · have hKfix : fixtureK = 9/11 := by
      norm_num [fixtureK, meanAt, ratMean, extract, powFix, indMaxFix, indMinFix]
    rw [hKfix, abs_le]
    constructor <;> norm_num

/-- Witness for C1 at the fixture spectrum, where the contrast is 9/11. -/
theorem calculate_loss_formula_witness :
    calculate_loss wlFix powFix indMaxFix indMinFix (2287/10000) (3073054/1000000)
      = Except.ok (NpVal.fin (lossFormulaSpec
          ((meanAt powFix indMaxFix : ℚ) : ℝ) ((meanAt powFix indMinFix : ℚ) : ℝ)
          (((extract wlFix indMaxFix).getD 0 0 : ℚ) : ℝ)
          (((extract wlFix indMaxFix).getD 1 0 : ℚ) : ℝ)
          (((2287/10000 : ℚ) : ℚ) : ℝ) (((3073054/1000000 : ℚ) : ℚ) : ℝ))) :=
  calculate_loss_formula.1 wlFix powFix indMaxFix indMinFix (2287/10000)
    (3073054/1000000) (by decide) (by decide) (by decide) (by decide) (by decide)
    (by decide)
    (by norm_num [meanAt, ratMean, extract, powFix, indMaxFix, indMinFix])
    (by norm_num [meanAt, ratMean, extract, powFix, indMaxFix, indMinFix])
    (by norm_num) (by norm_num)
    (by norm_num [extract, wlFix, indMaxFix, List.getD])
    (by norm_num [extract, wlFix, indMaxFix, List.getD])
